import Mathlib

/-!
# git-semv: the command-line layer (`cmd/git-semv/cli.go`, `cmd/git-semv/main.go`)

A shallow embedding of `CLI.buildHelp`, `CLI.showHelp` and `CLI.run`.

The two writers of `CLI` (`outStream`, `errStream`) are modelled by the text
written to each of them.  The flag parser (`go-flags`) and the version package
(`semv`) are not part of these sources: their operations are the fields of
`Deps`, and every general theorem below holds for all of them.
-/

namespace GitSemv

/-! ## Constants -/

/-- ExitOK for exit code (`cli.go`, line 17). -/
def ExitOK : Int := 0

/-- ExitErr for exit code (`cli.go`, line 20). -/
def ExitErr : Int := 1

/-- The variable `version` of `main.go`. -/
def version : String := "dev"

/-- The variable `commit` of `main.go`. -/
def commit : String := "none"

/-- The variable `date` of `main.go`. -/
def date : String := "unknown"

/-! ## The `CLI` struct -/

/-- The fields of `CLI` other than the two writers. -/
structure CLI where
  Command : String
  Args : List String
  Pre : Bool
  PreName : String
  Build : Bool
  BuildName : String
  All : Bool
  Bump : Bool
  Prefix : String
  Help : Bool
  Version : Bool
  deriving DecidableEq, Repr

/-- A struct field as `reflect` shows it: its name and its tag, the tag given
as the list of its `key:"value"` pairs (empty when the field has no tag). -/
structure StructField where
  Name : String
  Tag : List (String × String)
  deriving DecidableEq, Repr

/-- The declaration of `CLI` (`cli.go`, lines 24-37), field by field. -/
def cliFields : List StructField :=
  [ ⟨"outStream", []⟩,
    ⟨"errStream", []⟩,
    ⟨"Command", []⟩,
    ⟨"Args", []⟩,
    ⟨"Pre", [("long", "pre"), ("short", "p"),
      ("description", "Pre-Release version indicates(ex: 0.0.1-rc.0)")]⟩,
    ⟨"PreName", [("long", "pre-name"),
      ("description", "Specify pre-release version name")]⟩,
    ⟨"Build", [("long", "build"), ("short", "b"),
      ("description", "Build version indicates(ex: 0.0.1+3222d31.foo)")]⟩,
    ⟨"BuildName", [("long", "build-name"),
      ("description", "Specify build version name")]⟩,
    ⟨"All", [("long", "all"), ("short", "a"),
      ("description", "Include everything such as pre-release and build versions in list")]⟩,
    ⟨"Bump", [("long", "bump"), ("short", "B"),
      ("description", "Create tag and Push to origin")]⟩,
    ⟨"Prefix", [("long", "prefix"), ("short", "x"),
      ("description", "Prefix for version and tag(default: v)")]⟩,
    ⟨"Help", [("long", "help"), ("short", "h"),
      ("description", "Show this help message and exit")]⟩,
    ⟨"Version", [("long", "version"), ("short", "v"),
      ("description", "Prints the version number")]⟩ ]

/-- The call `t.FieldByName(name)`: the field and whether it was found. -/
def fieldByName (name : String) : Option StructField :=
  cliFields.find? (fun f => f.Name = name)

/-- The call `tag.Get(key)`: the value of the key, the empty string when the
tag has no such key. -/
def tagGet (tag : List (String × String)) (key : String) : String :=
  match tag.find? (fun kv => kv.1 = key) with
  | some kv => kv.2
  | none => ""

/-! ## `buildHelp` -/

/-- The call `strings.Index(desc, "\n")`: `some i` for a result `i >= 0`. -/
def indexNewline (desc : List Char) : Option Nat :=
  let i := desc.indexOf '\n'
  if i < desc.length then some i else none

/-- The constant `indent` of `buildHelp`: 24 blanks. -/
def indent : List Char := List.replicate 24 ' '

/-- The inner `for` loop of `buildHelp` (lines 70-78) on the pair `(buf, desc)`;
each turn that continues shortens `desc`, so `desc.length` turns suffice. -/
def wrapLoop : Nat → List Char → List Char → List Char × List Char
  | 0, buf, desc => (buf, desc)
  | fuel + 1, buf, desc =>
    match indexNewline desc with
    | some i => wrapLoop fuel (buf ++ indent ++ desc.take (i + 1)) (desc.drop (i + 1))
    | none => (buf, desc)

/-- Lines 64-84 of `buildHelp`: the description, its continuation lines indented. -/
def wrapDescription (desc : String) : String :=
  match indexNewline desc.data with
  | some i =>
    let buf := desc.data.take (i + 1)
    let rest := desc.data.drop (i + 1)
    let (buf, rest) := wrapLoop (rest.length + 1) buf rest
    let buf := if rest.length > 0 then buf ++ indent ++ rest else buf
    String.mk buf
  | none => desc

/-- The verb `%-18s`: the string, padded with blanks on the right to width 18. -/
def padRight18 (o : String) : String :=
  o ++ String.mk (List.replicate (18 - o.length) ' ')

/-- The body of the `for` loop of `buildHelp` for one name: the help line, or
`none` where the loop says `continue`. -/
def helpLine (name : String) : Option String :=
  match fieldByName name with
  | none => none
  | some f =>
    if f.Tag = [] then none
    else
      let a := if tagGet f.Tag "arg" ≠ "" then "=" ++ tagGet f.Tag "arg" else ""
      let o :=
        if tagGet f.Tag "short" ≠ "" then
          "-" ++ tagGet f.Tag "short" ++ ", --" ++ tagGet f.Tag "long" ++ a
        else
          "    --" ++ tagGet f.Tag "long" ++ a
      let desc := wrapDescription (tagGet f.Tag "description")
      some ("  " ++ padRight18 o ++ " " ++ desc)

/-- The method `CLI.buildHelp` (`cli.go`, lines 39-89). -/
def buildHelp (names : List String) : List String :=
  names.filterMap helpLine

/-- The names `showHelp` passes to `buildHelp` (`cli.go`, lines 93-101). -/
def showHelpNames : List String :=
  ["Pre", "PreRelease", "Build", "BuildName", "All", "Bump", "Prefix", "Help", "Version"]

/-- The method `CLI.showHelp` (`cli.go`, lines 91-118): the text it writes to
`outStream`. -/
def showHelp : String :=
  let opts := String.intercalate "\n" (buildHelp showHelpNames)
  "\nUsage: git-semv [--version] [--help] command <options>\n\nCommands:\n" ++
  "  list               Sorted versions\n" ++
  "  now                Current version\n" ++
  "  major              Next major version: vX.0.0\n" ++
  "  minor              Next minor version: v0.X.0\n" ++
  "  patch              Next patch version: v0.0.X\n" ++
  "\nOptions:\n" ++ opts ++ "\n"

/-! ## The operations `run` calls -/

/-- The operations `run` calls that these sources do not define: the flag
parser of `go-flags`, the package `semv`, and the verbs of `fmt` on their
values.  `E` is the type `error`, `L` what `NewList` and `NewStrictList`
return, `V` what `Current` and `Next` return (the nil value included).
A method called for its effect on the receiver (`PreRelease`, `Build`) is the
function from the receiver before the call to the receiver after it.  Every
operation is taken to return.  What the parser prints by itself (option
`PrintErrors`) goes to the standard error of the process, not through
`errStream`, and is no part of the text recorded here. -/
structure Deps (E L V : Type) where
  /-- The call `p.ParseArgs(a)` on a parser made from `c`: the fields of `c`
  after the call, the remaining arguments and the error. -/
  ParseArgs : CLI → List String → CLI × List String × Option E
  /-- The call `semv.NewList()`. -/
  NewList : L × Option E
  /-- The call `semv.NewStrictList()`. -/
  NewStrictList : L × Option E
  /-- The call `semv.Current()`. -/
  Current : V × Option E
  /-- The call `current.Next(target)`. -/
  Next : V → String → V
  /-- The call `next.PreRelease(name)`: the receiver after it. -/
  PreRelease : V → String → V
  /-- The call `next.Build(name)`: the receiver after it. -/
  Build : V → String → V
  /-- The verb `%#v` on an error. -/
  goSyntax : E → String
  /-- The verb `%s` on a list. -/
  listString : L → String
  /-- The verb `%s` on a version. -/
  versionString : V → String

/-- A call of `run` into the package `semv`. -/
inductive Call (V : Type) where
  | NewList : Call V
  | NewStrictList : Call V
  | Current : Call V
  | Next (receiver : V) (target : String) : Call V
  | PreRelease (receiver : V) (name : String) : Call V
  | Build (receiver : V) (name : String) : Call V
  deriving DecidableEq, Repr

/-- What a call of `run` leaves behind: the fields of the receiver, the text
written to `outStream` and to `errStream`, the calls made into `semv` in
order, and the argument of `os.Exit` (`none` when `run` returns instead). -/
structure Result (V : Type) where
  cli : CLI
  out : String
  err : String
  calls : List (Call V)
  exit : Option Int
  deriving DecidableEq, Repr

/-- The exit code of the process: the argument of `os.Exit`, and 0 when `run`
returns to `main`, which then returns. -/
def Result.exitCode {V : Type} (r : Result V) : Int :=
  match r.exit with
  | some code => code
  | none => 0

/-- The statement `if err != nil { fmt.Fprintf(c.errStream, "Error: %#v\n", err) }`:
the text written to `errStream`. -/
def reportError {E L V : Type} (d : Deps E L V) : Option E → String
  | some e => "Error: " ++ d.goSyntax e ++ "\n"
  | none => ""

/-- The text of line 135: `"git-semv version %s [%v, %v]\n"`. -/
def versionLine : String :=
  "git-semv version " ++ version ++ " [" ++ commit ++ ", " ++ date ++ "]\n"

/-- Lines 140-144 of `run`: the command is `args[0]`, and `"list"` when there
is no remaining argument. -/
def selectCommand (args : List String) : String :=
  match args with
  | arg :: _ => arg
  | [] => "list"

/-- Lines 140-148 of `run`: the command is stored in `Command`, and the
arguments after it in `Args` when there are any. -/
def storeCommand (c : CLI) (args : List String) : CLI :=
  let c := { c with Command := selectCommand args }
  if args.length > 1 then { c with Args := args.drop 1 } else c

/-- The method `CLI.run` (`cli.go`, lines 120-192). -/
def run {E L V : Type} (d : Deps E L V) (c : CLI) (a : List String) : Result V :=
  match d.ParseArgs c a with
  | (c, _, some e) =>
    { cli := c, out := "", err := reportError d (some e), calls := [], exit := none }
  | (c, args, none) =>
    if c.Help then
      { cli := c, out := showHelp, err := "", calls := [], exit := some ExitErr }
    else if c.Version then
      { cli := c, out := "", err := versionLine, calls := [], exit := some ExitOK }
    else
      let c := storeCommand c args
      if c.Command = "list" then
        let r := if c.All then d.NewList else d.NewStrictList
        { cli := c
          out := d.listString r.1 ++ "\n"
          err := reportError d r.2
          calls := [if c.All then Call.NewList else Call.NewStrictList]
          exit := some ExitOK }
      else if c.Command = "now" ∨ c.Command = "current" then
        let r := d.Current
        { cli := c
          out := d.versionString r.1 ++ "\n"
          err := reportError d r.2
          calls := [Call.Current]
          exit := some ExitOK }
      else if c.Command = "major" ∨ c.Command = "minor" ∨ c.Command = "patch" then
        let r := d.Current
        let next := d.Next r.1 c.Command
        let next1 := if c.Pre then d.PreRelease next c.PreName else next
        let next2 := if c.Build then d.Build next1 c.BuildName else next1
        { cli := c
          out := d.versionString next2 ++ "\n"
          err := reportError d r.2
          calls := [Call.Current, Call.Next r.1 c.Command]
            ++ (if c.Pre then [Call.PreRelease next c.PreName] else [])
            ++ (if c.Build then [Call.Build next1 c.BuildName] else [])
          exit := some ExitOK }
      else
        { cli := c
          out := showHelp
          err := "Error: command is not available\n"
          calls := []
          exit := some ExitErr }

/-- The receiver `main` builds (`main.go`, lines 14-20): `Prefix` is `"v"`,
the other fields of `CLI` have their zero value (`main` also names a field
`Minor`, which `CLI` does not declare). -/
def mainCLI : CLI :=
  { Command := "", Args := [], Pre := false, PreName := "", Build := false,
    BuildName := "", All := false, Bump := false, Prefix := "v", Help := false,
    Version := false }

/-! ## One instance of the operations

The general theorems hold for every `Deps`.  The instance below serves to
evaluate `run` on concrete argument lists: a flag parser for the options
declared in `CLI`, and versions kept as plain records. -/

/-- A version of the sample instance. -/
structure SemVer where
  major : Nat
  minor : Nat
  patch : Nat
  pre : String
  build : String
  deriving DecidableEq, Repr

/-- The text of a sample version, `v1.2.3-rc.0+abc`. -/
def SemVer.text (v : SemVer) : String :=
  "v" ++ toString v.major ++ "." ++ toString v.minor ++ "." ++ toString v.patch
    ++ (if v.pre = "" then "" else "-" ++ v.pre)
    ++ (if v.build = "" then "" else "+" ++ v.build)

/-- The state of the sample flag parser while it walks the arguments. -/
structure ParseState where
  cli : CLI
  rest : List String
  pending : Option (CLI → String → CLI)
  literal : Bool
  error : Option String

/-- One argument of the sample flag parser: a boolean option sets its field,
an option with a value waits for the next argument, `--` ends the options, an
unknown option is an error, anything else is a remaining argument. -/
def sampleStep (s : ParseState) (arg : String) : ParseState :=
  match s.error, s.pending with
  | some _, _ => s
  | none, some set => { s with cli := set s.cli arg, pending := none }
  | none, none =>
    if s.literal then { s with rest := s.rest ++ [arg] }
    else if arg = "--" then { s with literal := true }
    else if arg = "--pre" ∨ arg = "-p" then { s with cli := { s.cli with Pre := true } }
    else if arg = "--build" ∨ arg = "-b" then { s with cli := { s.cli with Build := true } }
    else if arg = "--all" ∨ arg = "-a" then { s with cli := { s.cli with All := true } }
    else if arg = "--bump" ∨ arg = "-B" then { s with cli := { s.cli with Bump := true } }
    else if arg = "--help" ∨ arg = "-h" then { s with cli := { s.cli with Help := true } }
    else if arg = "--version" ∨ arg = "-v" then
      { s with cli := { s.cli with Version := true } }
    else if arg = "--pre-name" then
      { s with pending := some (fun c v => { c with PreName := v }) }
    else if arg = "--build-name" then
      { s with pending := some (fun c v => { c with BuildName := v }) }
    else if arg = "--prefix" ∨ arg = "-x" then
      { s with pending := some (fun c v => { c with Prefix := v }) }
    else if arg.data.head? = some '-' ∧ arg ≠ "-" then
      { s with error := some ("unknown flag " ++ arg) }
    else { s with rest := s.rest ++ [arg] }

/-- The sample flag parser. -/
def sampleParseArgs (c : CLI) (a : List String) : CLI × List String × Option String :=
  let s := a.foldl sampleStep
    { cli := c, rest := [], pending := none, literal := false, error := none }
  match s.error, s.pending with
  | some e, _ => (s.cli, s.rest, some e)
  | none, some _ => (s.cli, s.rest, some "expected argument for flag")
  | none, none => (s.cli, s.rest, none)

/-- The sample `Next`: nil stays nil, a version is incremented at the target. -/
def sampleNext : Option SemVer → String → Option SemVer
  | none, _ => none
  | some v, target =>
    if target = "major" then some ⟨v.major + 1, 0, 0, "", ""⟩
    else if target = "minor" then some ⟨v.major, v.minor + 1, 0, "", ""⟩
    else if target = "patch" then some ⟨v.major, v.minor, v.patch + 1, "", ""⟩
    else some v

/-- The sample `%s` of a version. -/
def sampleVersionString : Option SemVer → String
  | none => "<nil>"
  | some v => v.text

/-- The sample instance over the versions `tags` of a repository; `none` is a
directory that is no repository, where every query fails. -/
def sampleDeps (tags : Option (List SemVer)) :
    Deps String (Option (List SemVer)) (Option SemVer) where
  ParseArgs := sampleParseArgs
  NewList :=
    match tags with
    | none => (none, some "not a git repository")
    | some vs => (some vs, none)
  NewStrictList :=
    match tags with
    | none => (none, some "not a git repository")
    | some vs => (some (vs.filter (fun v => v.pre = "" ∧ v.build = "")), none)
  Current :=
    match tags with
    | none => (none, some "not a git repository")
    | some [] => (none, some "no version found")
    | some (v :: _) => (some v, none)
  Next := sampleNext
  PreRelease := fun o name => o.map (fun v => { v with pre := if name = "" then "0" else name ++ ".0" })
  Build := fun o name => o.map (fun v => { v with build := if name = "" then "build" else name })
  goSyntax := fun e => e
  listString := fun o =>
    match o with
    | none => "<nil>"
    | some vs => String.intercalate "\n" (vs.map SemVer.text)
  versionString := sampleVersionString

/-- The tags of the sample repository, newest first. -/
def sampleTags : List SemVer :=
  [⟨1, 1, 0, "rc.1", ""⟩, ⟨1, 0, 0, "", ""⟩, ⟨0, 9, 0, "", ""⟩]

/-- The commands of `run`: the cases of its `switch` (lines 151, 163, 170). -/
def commands : List String := ["list", "now", "current", "major", "minor", "patch"]

/-- Two results agree on what can be observed from outside: the two streams,
the calls into `semv` and the exit. -/
def Result.sameBehaviour {V : Type} (r s : Result V) : Prop :=
  r.out = s.out ∧ r.err = s.err ∧ r.calls = s.calls ∧ r.exit = s.exit

/-! ## Lemmas

The equations of `run`, one for each of its paths. -/

/-! ### What `storeCommand` stores -/

/-- The command `storeCommand` stores. -/
theorem storeCommand_Command (c : CLI) (args : List String) :
    (storeCommand c args).Command = selectCommand args := by
  unfold storeCommand; split <;> rfl

/-- The flags `storeCommand` leaves as they are. -/
theorem storeCommand_flags (c : CLI) (args : List String) :
    (storeCommand c args).Pre = c.Pre ∧ (storeCommand c args).PreName = c.PreName ∧
    (storeCommand c args).Build = c.Build ∧ (storeCommand c args).BuildName = c.BuildName ∧
    (storeCommand c args).All = c.All := by
  unfold storeCommand; split <;> simp

/-! ### `run`, path by path -/

/-- Lines 123-126: the parser returns an error. -/
theorem run_parse_error {E L V : Type} (d : Deps E L V) (c c' : CLI) (a args : List String)
    (e : E) (hp : d.ParseArgs c a = (c', args, some e)) :
    run d c a =
      { cli := c', out := "", err := reportError d (some e), calls := [], exit := none } := by
  simp only [run, hp]

/-- Lines 128-132: `Help` is set. -/
theorem run_help {E L V : Type} (d : Deps E L V) (c c' : CLI) (a args : List String)
    (hp : d.ParseArgs c a = (c', args, none)) (hH : c'.Help = true) :
    run d c a =
      { cli := c', out := showHelp, err := "", calls := [], exit := some ExitErr } := by
  simp only [run, hp, hH, if_true]

/-- Lines 134-138: `Version` is set and `Help` is not. -/
theorem run_version {E L V : Type} (d : Deps E L V) (c c' : CLI) (a args : List String)
    (hp : d.ParseArgs c a = (c', args, none)) (hH : c'.Help = false) (hV : c'.Version = true) :
    run d c a =
      { cli := c', out := "", err := versionLine, calls := [], exit := some ExitOK } := by
  simp only [run, hp, hH, hV, if_true]
  simp

/-- Lines 151-161: the command `list`. -/
theorem run_list {E L V : Type} (d : Deps E L V) (c c' : CLI) (a args : List String)
    (hp : d.ParseArgs c a = (c', args, none)) (hH : c'.Help = false) (hV : c'.Version = false)
    (hc : selectCommand args = "list") :
    run d c a =
      { cli := storeCommand c' args
        out := d.listString (if c'.All then d.NewList else d.NewStrictList).1 ++ "\n"
        err := reportError d (if c'.All then d.NewList else d.NewStrictList).2
        calls := [if c'.All then Call.NewList else Call.NewStrictList]
        exit := some ExitOK } := by
  obtain ⟨-, -, -, -, hAll⟩ := storeCommand_flags c' args
  simp only [run, hp, hH, hV, storeCommand_Command, hc, hAll]
  simp

/-- Lines 163-168: the commands `now` and `current`. -/
theorem run_now {E L V : Type} (d : Deps E L V) (c c' : CLI) (a args : List String)
    (hp : d.ParseArgs c a = (c', args, none)) (hH : c'.Help = false) (hV : c'.Version = false)
    (hc : selectCommand args = "now" ∨ selectCommand args = "current") :
    run d c a =
      { cli := storeCommand c' args
        out := d.versionString d.Current.1 ++ "\n"
        err := reportError d d.Current.2
        calls := [Call.Current]
        exit := some ExitOK } := by
  have hl : selectCommand args ≠ "list" := by
    rcases hc with h | h <;> rw [h] <;> decide
  simp only [run, hp, hH, hV, storeCommand_Command, hc, hl]
  simp

/-- Lines 170-182: the commands `major`, `minor` and `patch`. -/
theorem run_bump {E L V : Type} (d : Deps E L V) (c c' : CLI) (a args : List String)
    (hp : d.ParseArgs c a = (c', args, none)) (hH : c'.Help = false) (hV : c'.Version = false)
    (hc : selectCommand args = "major" ∨ selectCommand args = "minor" ∨
      selectCommand args = "patch") :
    run d c a =
      { cli := storeCommand c' args
        out := d.versionString
          (if c'.Build then
            d.Build (if c'.Pre then d.PreRelease (d.Next d.Current.1 (selectCommand args))
              c'.PreName else d.Next d.Current.1 (selectCommand args)) c'.BuildName
          else
            (if c'.Pre then d.PreRelease (d.Next d.Current.1 (selectCommand args))
              c'.PreName else d.Next d.Current.1 (selectCommand args))) ++ "\n"
        err := reportError d d.Current.2
        calls := [Call.Current, Call.Next d.Current.1 (selectCommand args)]
          ++ (if c'.Pre then
                [Call.PreRelease (d.Next d.Current.1 (selectCommand args)) c'.PreName]
              else [])
          ++ (if c'.Build then
                [Call.Build (if c'.Pre then
                    d.PreRelease (d.Next d.Current.1 (selectCommand args)) c'.PreName
                  else d.Next d.Current.1 (selectCommand args)) c'.BuildName]
              else [])
        exit := some ExitOK } := by
  obtain ⟨hPre, hPreName, hBuild, hBuildName, -⟩ := storeCommand_flags c' args
  have hl : selectCommand args ≠ "list" := by
    rcases hc with h | h | h <;> rw [h] <;> decide
  have hn : ¬ (selectCommand args = "now" ∨ selectCommand args = "current") := by
    rcases hc with h | h | h <;> rw [h] <;> decide
  simp only [run, hp, hH, hV, storeCommand_Command, hc, hl, hn, hPre, hPreName, hBuild,
    hBuildName]
  simp

/-- Lines 184-188: any other command. -/
theorem run_unavailable {E L V : Type} (d : Deps E L V) (c c' : CLI) (a args : List String)
    (hp : d.ParseArgs c a = (c', args, none)) (hH : c'.Help = false) (hV : c'.Version = false)
    (hc : selectCommand args ∉ commands) :
    run d c a =
      { cli := storeCommand c' args
        out := showHelp
        err := "Error: command is not available\n"
        calls := []
        exit := some ExitErr } := by
  simp only [commands, List.mem_cons, List.mem_singleton, not_or, List.mem_nil_iff,
    or_false] at hc
  obtain ⟨h1, h2, h3, h4, h5, h6⟩ := hc
  simp only [run, hp, hH, hV, storeCommand_Command, h1, h2, h3, h4, h5, h6]
  simp

/-- A text that ends in a newline is not empty. -/
theorem append_newline_ne_empty (s : String) : s ++ "\n" ≠ "" := by
  intro h
  have hlen := congrArg String.length h
  rw [String.length_append] at hlen
  have hone : "\n".length = 1 := by decide
  have hzero : "".length = 0 := by decide
  omega

/-- The flags `run` reads: two parses that agree on them and on the
remaining arguments give the same behaviour. -/
theorem run_sameBehaviour_of_flags {E L V : Type} (d : Deps E L V) (c c₁ c₂ : CLI)
    (a₁ a₂ args : List String)
    (hp₁ : d.ParseArgs c a₁ = (c₁, args, none)) (hp₂ : d.ParseArgs c a₂ = (c₂, args, none))
    (hHelp : c₁.Help = c₂.Help) (hVersion : c₁.Version = c₂.Version)
    (hPre : c₁.Pre = c₂.Pre) (hPreName : c₁.PreName = c₂.PreName)
    (hBuild : c₁.Build = c₂.Build) (hBuildName : c₁.BuildName = c₂.BuildName)
    (hAll : c₁.All = c₂.All) :
    (run d c a₁).sameBehaviour (run d c a₂) := by
  cases hH : c₁.Help
  · cases hV : c₁.Version
    · by_cases hl : selectCommand args = "list"
      · rw [run_list d c c₁ a₁ args hp₁ hH hV hl,
          run_list d c c₂ a₂ args hp₂ (hHelp ▸ hH) (hVersion ▸ hV) hl, hAll]
        exact ⟨rfl, rfl, rfl, rfl⟩
      · by_cases hn : selectCommand args = "now" ∨ selectCommand args = "current"
        · rw [run_now d c c₁ a₁ args hp₁ hH hV hn,
            run_now d c c₂ a₂ args hp₂ (hHelp ▸ hH) (hVersion ▸ hV) hn]
          exact ⟨rfl, rfl, rfl, rfl⟩
        · by_cases hb : selectCommand args = "major" ∨ selectCommand args = "minor" ∨
              selectCommand args = "patch"
          · rw [run_bump d c c₁ a₁ args hp₁ hH hV hb,
              run_bump d c c₂ a₂ args hp₂ (hHelp ▸ hH) (hVersion ▸ hV) hb,
              hPre, hPreName, hBuild, hBuildName]
            exact ⟨rfl, rfl, rfl, rfl⟩
          · have hc : selectCommand args ∉ commands := by
              simp only [commands, List.mem_cons, List.mem_singleton, List.mem_nil_iff,
                or_false]
              tauto
            rw [run_unavailable d c c₁ a₁ args hp₁ hH hV hc,
              run_unavailable d c c₂ a₂ args hp₂ (hHelp ▸ hH) (hVersion ▸ hV) hc]
            exact ⟨rfl, rfl, rfl, rfl⟩
    · rw [run_version d c c₁ a₁ args hp₁ hH hV,
        run_version d c c₂ a₂ args hp₂ (hHelp ▸ hH) (hVersion ▸ hV)]
      exact ⟨rfl, rfl, rfl, rfl⟩
  · rw [run_help d c c₁ a₁ args hp₁ hH, run_help d c c₂ a₂ args hp₂ (hHelp ▸ hH)]
    exact ⟨rfl, rfl, rfl, rfl⟩

/-! ## The claims -/

/-- C1, as stated, fails at `--help`: `run` exits with code 1 although the flags
parsed, no command was looked up, no call into `semv` was made and nothing was
written to the error stream. -/
theorem run_help_exits_with_error_code :
    sampleParseArgs mainCLI ["--help"] = ({ mainCLI with Help := true }, [], none) ∧
    (run (sampleDeps (some sampleTags)) mainCLI ["--help"]).exitCode = ExitErr ∧
    (run (sampleDeps (some sampleTags)) mainCLI ["--help"]).err = "" ∧
    (run (sampleDeps (some sampleTags)) mainCLI ["--help"]).calls = [] := by
  decide

/-- C1, amended: when the flags parse and none of `NewList`, `NewStrictList` and
`Current` fails, `run` ends with exit code 1 exactly when `Help` is set or it
reported that the command is not available, and with exit code 0 otherwise;
and it reports that exactly when `Help` and `Version` are unset and the command
is none of `list`, `now`, `current`, `major`, `minor`, `patch`. -/
theorem run_exit_code {E L V : Type} (d : Deps E L V) (c c' : CLI)
    (a args : List String) (hp : d.ParseArgs c a = (c', args, none))
    (hl : d.NewList.2 = none) (hs : d.NewStrictList.2 = none) (hcur : d.Current.2 = none) :
    ((run d c a).exitCode = ExitErr ↔
      (c'.Help = true ∨ (run d c a).err = "Error: command is not available\n")) ∧
    ((run d c a).exitCode = ExitOK ↔
      ¬ (c'.Help = true ∨ (run d c a).err = "Error: command is not available\n")) ∧
    ((run d c a).err = "Error: command is not available\n" ↔
      (c'.Help = false ∧ c'.Version = false ∧ selectCommand args ∉ commands)) := by
  have h01 : ExitOK ≠ ExitErr := by decide
  have hempty : "" ≠ "Error: command is not available\n" := by decide
  have hver : versionLine ≠ "Error: command is not available\n" := by decide
  have hq : (if c'.All then d.NewList else d.NewStrictList).2 = none := by
    split <;> assumption
  cases hH : c'.Help
  · cases hV : c'.Version
    · by_cases hcmd : selectCommand args ∈ commands
      · have hcmd' := hcmd
        simp only [commands, List.mem_cons, List.mem_singleton, List.mem_nil_iff,
          or_false] at hcmd'
        rcases hcmd' with h | h | h | h | h | h
        · rw [run_list d c c' a args hp hH hV h, hq]
          simp [Result.exitCode, reportError, h01, hempty, hcmd]
        · rw [run_now d c c' a args hp hH hV (Or.inl h), hcur]
          simp [Result.exitCode, reportError, h01, hempty, hcmd]
        · rw [run_now d c c' a args hp hH hV (Or.inr h), hcur]
          simp [Result.exitCode, reportError, h01, hempty, hcmd]
        · rw [run_bump d c c' a args hp hH hV (Or.inl h), hcur]
          simp [Result.exitCode, reportError, h01, hempty, hcmd]
        · rw [run_bump d c c' a args hp hH hV (Or.inr (Or.inl h)), hcur]
          simp [Result.exitCode, reportError, h01, hempty, hcmd]
        · rw [run_bump d c c' a args hp hH hV (Or.inr (Or.inr h)), hcur]
          simp [Result.exitCode, reportError, h01, hempty, hcmd]
      · rw [run_unavailable d c c' a args hp hH hV hcmd]
        simp [Result.exitCode, h01.symm, hcmd]
    · rw [run_version d c c' a args hp hH hV]
      simp [Result.exitCode, h01, hver]
  · rw [run_help d c c' a args hp hH]
    simp [Result.exitCode, h01.symm, hempty]

/-- C1, amended, in the sample repository: `frobnicate` is no command and gives
exit code 1. -/
theorem run_exit_code_witness :
    sampleParseArgs mainCLI ["frobnicate"] = (mainCLI, ["frobnicate"], none) ∧
    (run (sampleDeps (some sampleTags)) mainCLI ["frobnicate"]).exitCode = ExitErr :=
  ⟨by decide,
   ((run_exit_code (sampleDeps (some sampleTags)) mainCLI mainCLI ["frobnicate"]
      ["frobnicate"] (by decide) (by decide) (by decide) (by decide)).1).2
      (Or.inr (by decide))⟩

/-- C2: for the commands `list`, `now` and `current`, when the query into `semv`
fails, `run` writes the error to the error stream and then still writes a line
to the output stream, and exits with `ExitOK`. -/
theorem run_prints_after_failed_query {E L V : Type} (d : Deps E L V) (c c' : CLI)
    (a args : List String) (e : E) (hp : d.ParseArgs c a = (c', args, none))
    (hH : c'.Help = false) (hV : c'.Version = false)
    (hc : selectCommand args = "list" ∨ selectCommand args = "now" ∨
      selectCommand args = "current")
    (hfail : (if selectCommand args = "list" then
        (if c'.All then d.NewList else d.NewStrictList).2 else d.Current.2) = some e) :
    (run d c a).err = "Error: " ++ d.goSyntax e ++ "\n" ∧
    (run d c a).out ≠ "" ∧
    (run d c a).exit = some ExitOK := by
  rcases hc with h | h
  · rw [if_pos h] at hfail
    rw [run_list d c c' a args hp hH hV h, hfail]
    exact ⟨rfl, append_newline_ne_empty _, rfl⟩
  · have hl : selectCommand args ≠ "list" := by
      rcases h with h | h <;> rw [h] <;> decide
    rw [if_neg hl] at hfail
    rw [run_now d c c' a args hp hH hV h, hfail]
    exact ⟨rfl, append_newline_ne_empty _, rfl⟩

/-- C2, at `list` outside a repository: the error is reported and the nil list
is printed. -/
theorem run_prints_after_failed_query_witness :
    sampleParseArgs mainCLI ["list"] = (mainCLI, ["list"], none) ∧
    (sampleDeps none).NewStrictList = (none, some "not a git repository") ∧
    (run (sampleDeps none) mainCLI ["list"]).err = "Error: not a git repository\n" ∧
    (run (sampleDeps none) mainCLI ["list"]).out ≠ "" ∧
    (run (sampleDeps none) mainCLI ["list"]).exit = some ExitOK :=
  ⟨by decide, rfl,
   run_prints_after_failed_query (sampleDeps none) mainCLI mainCLI ["list"] ["list"]
    "not a git repository" (by decide) (by decide) (by decide) (by decide) (by decide)⟩

/-- C3: every call of `Next` that `run` makes has the command as its target,
and the command is then one of `major`, `minor` and `patch`; so for every
other command, and on the paths that select no command, `Next` is not called. -/
theorem run_next_only_for_bump_commands {E L V : Type} (d : Deps E L V) (c : CLI)
    (a : List String) (v : V) (k : String) (h : Call.Next v k ∈ (run d c a).calls) :
    (run d c a).cli.Command = k ∧ (k = "major" ∨ k = "minor" ∨ k = "patch") := by
  rcases hp : d.ParseArgs c a with ⟨c', args, _ | e⟩
  · cases hH : c'.Help
    · cases hV : c'.Version
      · by_cases hl : selectCommand args = "list"
        · rw [run_list d c c' a args hp hH hV hl] at h
          split_ifs at h <;> simp at h
        · by_cases hn : selectCommand args = "now" ∨ selectCommand args = "current"
          · rw [run_now d c c' a args hp hH hV hn] at h
            simp at h
          · by_cases hb : selectCommand args = "major" ∨ selectCommand args = "minor" ∨
                selectCommand args = "patch"
            · rw [run_bump d c c' a args hp hH hV hb] at h ⊢
              have hk : k = selectCommand args := by
                split_ifs at h <;> simp at h <;> exact h.2
              subst hk
              exact ⟨storeCommand_Command c' args, hb⟩
            · have hc : selectCommand args ∉ commands := by
                simp only [commands, List.mem_cons, List.mem_singleton, List.mem_nil_iff,
                  or_false]
                tauto
              rw [run_unavailable d c c' a args hp hH hV hc] at h
              simp at h
      · rw [run_version d c c' a args hp hH hV] at h
        simp at h
    · rw [run_help d c c' a args hp hH] at h
      simp at h
  · rw [run_parse_error d c c' a args e hp] at h
    simp at h

/-- C3, at `patch` in the sample repository: `Next` is called on the current
version with the target `patch`. -/
theorem run_next_only_for_bump_commands_witness :
    Call.Next (some ⟨1, 1, 0, "rc.1", ""⟩) "patch"
        ∈ (run (sampleDeps (some sampleTags)) mainCLI ["patch"]).calls ∧
      ((run (sampleDeps (some sampleTags)) mainCLI ["patch"]).cli.Command = "patch" ∧
        ("patch" = "major" ∨ "patch" = "minor" ∨ "patch" = "patch")) :=
  ⟨by decide,
    run_next_only_for_bump_commands (sampleDeps (some sampleTags)) mainCLI ["patch"]
      (some ⟨1, 1, 0, "rc.1", ""⟩) "patch" (by decide)⟩

/-- C4: for the command `list`, `run` makes one call into `semv`, `NewStrictList`
when `All` is not set and `NewList` when it is, and the text written to the
output stream is the list that call returned (verb `%s`) and a newline. -/
theorem run_list_queries_one_list {E L V : Type} (d : Deps E L V) (c c' : CLI)
    (a args : List String) (hp : d.ParseArgs c a = (c', args, none))
    (hH : c'.Help = false) (hV : c'.Version = false) (hc : selectCommand args = "list") :
    (c'.All = false →
      (run d c a).calls = [Call.NewStrictList] ∧
        (run d c a).out = d.listString d.NewStrictList.1 ++ "\n") ∧
    (c'.All = true →
      (run d c a).calls = [Call.NewList] ∧
        (run d c a).out = d.listString d.NewList.1 ++ "\n") := by
  rw [run_list d c c' a args hp hH hV hc]
  constructor <;> intro hAll <;> simp [hAll]

/-- C4, in the sample repository: `list` prints the plain releases, `--all list`
every version. -/
theorem run_list_queries_one_list_witness :
    ((run (sampleDeps (some sampleTags)) mainCLI ["list"]).calls = [Call.NewStrictList] ∧
      (run (sampleDeps (some sampleTags)) mainCLI ["list"]).out = "v1.0.0\nv0.9.0\n") ∧
    ((run (sampleDeps (some sampleTags)) mainCLI ["--all", "list"]).calls = [Call.NewList] ∧
      (run (sampleDeps (some sampleTags)) mainCLI ["--all", "list"]).out
        = "v1.1.0-rc.1\nv1.0.0\nv0.9.0\n") :=
  ⟨(run_list_queries_one_list (sampleDeps (some sampleTags)) mainCLI mainCLI ["list"]
      ["list"] (by decide) (by decide) (by decide) (by decide)).1 (by decide),
   (run_list_queries_one_list (sampleDeps (some sampleTags)) mainCLI
      { mainCLI with All := true } ["--all", "list"] ["list"]
      (by decide) (by decide) (by decide) (by decide)).2 (by decide)⟩

/-- C5: for the commands `major`, `minor` and `patch`, when `Current` returns
`v` without error, `run` calls `Next` on `v` with the command, then `PreRelease`
with `PreName` exactly when `Pre` is set, then `Build` with `BuildName` exactly
when `Build` is set, and prints the version so obtained; with neither flag set
it prints `Next(v, command)`, whatever `PreName` and `BuildName` are. -/
theorem run_bump_prints_next {E L V : Type} (d : Deps E L V) (c c' : CLI)
    (a args : List String) (v : V) (hp : d.ParseArgs c a = (c', args, none))
    (hH : c'.Help = false) (hV : c'.Version = false)
    (hc : selectCommand args = "major" ∨ selectCommand args = "minor" ∨
      selectCommand args = "patch")
    (hcur : d.Current = (v, none)) :
    (run d c a).out =
      d.versionString
        (if c'.Build then
          d.Build (if c'.Pre then d.PreRelease (d.Next v (selectCommand args)) c'.PreName
            else d.Next v (selectCommand args)) c'.BuildName
        else
          (if c'.Pre then d.PreRelease (d.Next v (selectCommand args)) c'.PreName
            else d.Next v (selectCommand args))) ++ "\n" ∧
    (run d c a).calls =
      [Call.Current, Call.Next v (selectCommand args)]
        ++ (if c'.Pre then [Call.PreRelease (d.Next v (selectCommand args)) c'.PreName]
            else [])
        ++ (if c'.Build then
              [Call.Build (if c'.Pre then
                  d.PreRelease (d.Next v (selectCommand args)) c'.PreName
                else d.Next v (selectCommand args)) c'.BuildName]
            else []) ∧
    (c'.Pre = false → c'.Build = false →
      (run d c a).out = d.versionString (d.Next v (selectCommand args)) ++ "\n" ∧
      (run d c a).calls = [Call.Current, Call.Next v (selectCommand args)]) := by
  rw [run_bump d c c' a args hp hH hV hc, hcur]
  refine ⟨rfl, rfl, ?_⟩
  intro hPre hBuild
  simp [hPre, hBuild]

/-- C5, in the sample repository at `patch --pre --pre-name rc --build-name x`:
the pre-release label is attached, the build label is not. -/
theorem run_bump_prints_next_witness :
    (run (sampleDeps (some sampleTags)) mainCLI
      ["patch", "--pre", "--pre-name", "rc", "--build-name", "x"]).out = "v1.1.1-rc.0\n" :=
  (run_bump_prints_next (sampleDeps (some sampleTags)) mainCLI
    { mainCLI with Pre := true, PreName := "rc", BuildName := "x" }
    ["patch", "--pre", "--pre-name", "rc", "--build-name", "x"] ["patch"]
    (some ⟨1, 1, 0, "rc.1", ""⟩)
    (by decide) (by decide) (by decide) (by decide) (by decide)).1.trans (by decide)

/-- C6: two argument lists whose parses differ in `Prefix` only give the same
output text, the same error text, the same calls into `semv` and the same
exit: `run` does not pass `Prefix` on. -/
theorem run_ignores_prefix {E L V : Type} (d : Deps E L V) (c c' : CLI)
    (a₁ a₂ args : List String) (p : String)
    (hp₁ : d.ParseArgs c a₁ = (c', args, none))
    (hp₂ : d.ParseArgs c a₂ = ({ c' with Prefix := p }, args, none)) :
    (run d c a₁).sameBehaviour (run d c a₂) :=
  run_sameBehaviour_of_flags d c c' { c' with Prefix := p } a₁ a₂ args hp₁ hp₂
    rfl rfl rfl rfl rfl rfl rfl

/-- C6, at `now` and `--prefix rel- now` in the sample repository. -/
theorem run_ignores_prefix_witness :
    sampleParseArgs mainCLI ["--prefix", "rel-", "now"]
      = ({ mainCLI with Prefix := "rel-" }, ["now"], none) ∧
    (run (sampleDeps (some sampleTags)) mainCLI ["now"]).sameBehaviour
      (run (sampleDeps (some sampleTags)) mainCLI ["--prefix", "rel-", "now"]) :=
  ⟨by decide, run_ignores_prefix (sampleDeps (some sampleTags)) mainCLI mainCLI
    ["now"] ["--prefix", "rel-", "now"] ["now"] "rel-" (by decide) (by decide)⟩

/-- C7: two argument lists whose parses differ in `Bump` only give the same
output text, the same error text, the same calls into `semv` and the same
exit: `run` does not read `Bump`, and no call of `run` creates or pushes a tag. -/
theorem run_ignores_bump {E L V : Type} (d : Deps E L V) (c c' : CLI)
    (a₁ a₂ args : List String) (b : Bool)
    (hp₁ : d.ParseArgs c a₁ = (c', args, none))
    (hp₂ : d.ParseArgs c a₂ = ({ c' with Bump := b }, args, none)) :
    (run d c a₁).sameBehaviour (run d c a₂) :=
  run_sameBehaviour_of_flags d c c' { c' with Bump := b } a₁ a₂ args hp₁ hp₂
    rfl rfl rfl rfl rfl rfl rfl

/-- C7, at `patch` and `--bump patch` in the sample repository. -/
theorem run_ignores_bump_witness :
    sampleParseArgs mainCLI ["--bump", "patch"]
      = ({ mainCLI with Bump := true }, ["patch"], none) ∧
    (run (sampleDeps (some sampleTags)) mainCLI ["patch"]).sameBehaviour
      (run (sampleDeps (some sampleTags)) mainCLI ["--bump", "patch"]) ∧
    (run (sampleDeps (some sampleTags)) mainCLI ["--bump", "patch"]).calls
      = [Call.Current, Call.Next (some ⟨1, 1, 0, "rc.1", ""⟩) "patch"] :=
  ⟨by decide, run_ignores_bump (sampleDeps (some sampleTags)) mainCLI mainCLI
    ["patch"] ["--bump", "patch"] ["patch"] true (by decide) (by decide), by decide⟩

/-- C8: with `Help` and `Version` unset, `run` without a remaining argument
stores the command `list` and gives the very result of `run` with the one
remaining argument `list`; and `run` with the command `now` gives the same
output text, error text, calls into `semv` and exit as with `current`. -/
theorem run_default_command_is_list {E L V : Type} (d : Deps E L V) (c c' : CLI)
    (a₁ a₂ a₃ a₄ rest : List String)
    (hp₁ : d.ParseArgs c a₁ = (c', [], none))
    (hp₂ : d.ParseArgs c a₂ = (c', ["list"], none))
    (hp₃ : d.ParseArgs c a₃ = (c', "now" :: rest, none))
    (hp₄ : d.ParseArgs c a₄ = (c', "current" :: rest, none))
    (hH : c'.Help = false) (hV : c'.Version = false) :
    (run d c a₁).cli.Command = "list" ∧
    run d c a₁ = run d c a₂ ∧
    (run d c a₃).sameBehaviour (run d c a₄) := by
  have h₁ : selectCommand ([] : List String) = "list" := rfl
  have h₂ : selectCommand ["list"] = "list" := rfl
  have hst : storeCommand c' [] = storeCommand c' ["list"] := rfl
  refine ⟨?_, ?_, ?_⟩
  · rw [run_list d c c' a₁ [] hp₁ hH hV h₁]
    exact storeCommand_Command c' []
  · rw [run_list d c c' a₁ [] hp₁ hH hV h₁, run_list d c c' a₂ ["list"] hp₂ hH hV h₂, hst]
  · rw [run_now d c c' a₃ ("now" :: rest) hp₃ hH hV (Or.inl rfl),
      run_now d c c' a₄ ("current" :: rest) hp₄ hH hV (Or.inr rfl)]
    exact ⟨rfl, rfl, rfl, rfl⟩

/-- C8, in the sample repository with `--all`. -/
theorem run_default_command_is_list_witness :
    (run (sampleDeps (some sampleTags)) mainCLI ["--all"]).cli.Command = "list" ∧
    run (sampleDeps (some sampleTags)) mainCLI ["--all"]
      = run (sampleDeps (some sampleTags)) mainCLI ["--all", "list"] ∧
    (run (sampleDeps (some sampleTags)) mainCLI ["--all", "now"]).sameBehaviour
      (run (sampleDeps (some sampleTags)) mainCLI ["--all", "current"]) :=
  run_default_command_is_list (sampleDeps (some sampleTags)) mainCLI
    { mainCLI with All := true } ["--all"] ["--all", "list"] ["--all", "now"]
    ["--all", "current"] [] (by decide) (by decide) (by decide) (by decide)
    (by decide) (by decide)

/-- C9: for the commands `major`, `minor` and `patch`, when `Current` fails,
`run` reports the error and goes on: it calls `Next` on the value `Current`
returned with the error. -/
theorem run_calls_next_after_failed_current {E L V : Type} (d : Deps E L V) (c c' : CLI)
    (a args : List String) (e : E) (hp : d.ParseArgs c a = (c', args, none))
    (hH : c'.Help = false) (hV : c'.Version = false)
    (hc : selectCommand args = "major" ∨ selectCommand args = "minor" ∨
      selectCommand args = "patch")
    (hcur : d.Current.2 = some e) :
    (run d c a).err = "Error: " ++ d.goSyntax e ++ "\n" ∧
    Call.Next d.Current.1 (selectCommand args) ∈ (run d c a).calls := by
  rw [run_bump d c c' a args hp hH hV hc, hcur]
  exact ⟨rfl, by simp⟩

/-- C9, at `patch` in a repository without tags: `Current` returns nil and an
error, and `Next` is called on nil. -/
theorem run_calls_next_after_failed_current_witness :
    (sampleDeps (some [])).Current = (none, some "no version found") ∧
    (run (sampleDeps (some [])) mainCLI ["patch"]).err = "Error: no version found\n" ∧
    Call.Next none "patch" ∈ (run (sampleDeps (some [])) mainCLI ["patch"]).calls :=
  ⟨rfl,
   run_calls_next_after_failed_current (sampleDeps (some [])) mainCLI mainCLI ["patch"]
    ["patch"] "no version found" (by decide) (by decide) (by decide) (by decide)
    (by decide)⟩

/-- C10: `showHelp` passes the name `PreRelease`, which is no field of `CLI`, and
does not pass `PreName`: `buildHelp` gives eight lines for the nine tagged
fields, and the line of `PreName` (`--pre-name`) is not among them. -/
theorem showHelp_omits_pre_name :
    (cliFields.filter (fun f => f.Tag ≠ [])).map (fun f => f.Name)
      = ["Pre", "PreName", "Build", "BuildName", "All", "Bump", "Prefix", "Help",
          "Version"] ∧
    fieldByName "PreRelease" = none ∧
    "PreName" ∉ showHelpNames ∧
    (buildHelp showHelpNames).length = 8 ∧
    helpLine "PreName" = some "      --pre-name     Specify pre-release version name" ∧
    "      --pre-name     Specify pre-release version name" ∉ buildHelp showHelpNames := by
  decide

end GitSemv
